import Mathlib

/-!
Shallow embedding of `src/main.py` of the repository
`washingtonxr/3gpp-standard-clawer`, a resumable concurrent bulk downloader
for 3GPP specification archives, together with proofs about the embedded
definitions.

The Python module consists of:
* configuration constants (`BASE_URL`, `DOWNLOAD_DIR`, `STATE_FILE`, ...);
* `get_all_spec_files` — catalog building over hardcoded series directories;
* `save_state` / `load_state` — the durable JSON progress record;
* `download_file` — per-item download with idempotent skip;
* `worker` / `main` — a fixed pool of threads draining a queue, then
  unconditional removal of the state file.

External collaborators (the HTTP transport and the HTML link extractor) are
modelled as oracles passed in as function arguments; filesystem state is
modelled explicitly by a `World` structure.
-/

namespace Crawler

/-! ## Configuration constants (lines 24-43 of `src/main.py`) -/

def BASE_REVERSION : String := "9"

def BASE_URL : String := "https://www.3gpp.org/ftp/Specs/latest/Rel-" ++ BASE_REVERSION ++ "/"

def DOWNLOAD_DIR : String := "data/Rel-" ++ BASE_REVERSION

def STATE_FILE : String := "download_state_rel-" ++ BASE_REVERSION ++ ".json"

def MAX_THREADS : Nat := 7

def SERIES_DIRS : List String :=
  ["21_series/", "22_series/", "23_series/", "24_series/", "25_series/",
   "26_series/", "27_series/", "28_series/", "29_series/", "31_series/",
   "32_series/", "33_series/", "34_series/", "35_series/", "36_series/",
   "37_series/", "38_series/", "41_series/", "42_series/", "43_series/",
   "44_series/", "45_series/", "46_series/", "48_series/", "49_series/",
   "51_series/", "52_series/", "55_series/"]

/-! ## Generic string helpers

Python's `str.split(sep)`, `str.endswith`, lexicographic string comparison
and `sorted` are re-implemented here by structural recursion on character
lists so that every definition evaluates inside the kernel. -/

/-- Splits a character list at every occurrence of the separator character.
Mirrors Python `s.split(c)` for a one-character separator: the result is
never empty, and consecutive separators yield empty fields. -/
def splitOnChar (c : Char) : List Char → List (List Char)
  | [] => [[]]
  | x :: xs =>
    match splitOnChar c xs with
    | [] => [[x]]
    | g :: gs => if x = c then [] :: g :: gs else (x :: g) :: gs

/-- Python `url.split('/')` as a list of strings. -/
def pySplitSlash (s : String) : List String :=
  (splitOnChar '/' s.data).map String.mk

/-- Boolean suffix test on strings, by structural recursion on the
underlying character lists (Python `str.endswith`). -/
def endsWithStr (s suffix : String) : Bool :=
  List.isSuffixOf suffix.data s.data

/-- Structural lexicographic comparison of character lists by code point,
the order Python uses to compare `str` values. -/
def lexLe : List Char → List Char → Bool
  | [], _ => true
  | _ :: _, [] => false
  | a :: as, b :: bs =>
    if a < b then true
    else if b < a then false
    else lexLe as bs

/-- Boolean lexicographic comparison of strings by code point. -/
def strLeb (a b : String) : Bool := lexLe a.data b.data

/-- The proposition form of `strLeb`, used as the sorting relation. -/
def StrLe (a b : String) : Prop := strLeb a b = true

instance : DecidableRel StrLe := fun a b => by
  unfold StrLe; infer_instance

theorem lexLe_cons_cons (a b : Char) (as bs : List Char) :
    lexLe (a :: as) (b :: bs) =
      if a < b then true else if b < a then false else lexLe as bs := rfl

/-- `lexLe` agrees with the (negated, flipped) core `List.lt` order on
character lists. -/
theorem lexLe_iff_not_lt : ∀ as bs : List Char, lexLe as bs = true ↔ ¬ List.lt bs as := by
  intro as
  induction as with
  | nil =>
    intro bs
    constructor
    · intro _ h
      cases h
    · intro _
      rfl
  | cons a as ih =>
    intro bs
    cases bs with
    | nil =>
      constructor
      · intro h
        exact Bool.noConfusion h
      · intro h
        exact absurd (List.lt.nil a as) h
    | cons b bs =>
      rw [lexLe_cons_cons]
      by_cases hab : a < b
      · rw [if_pos hab]
        constructor
        · intro _ h
          cases h with
          | head _ _ hba => exact absurd hab (asymm hba)
          | tail hba hab2 _ => exact hab2 hab
        · intro _
          rfl
      · rw [if_neg hab]
        by_cases hba : b < a
        · rw [if_pos hba]
          constructor
          · intro h
            exact Bool.noConfusion h
          · intro h
            exact absurd (List.lt.head bs as hba) h
        · rw [if_neg hba, ih bs]
          constructor
          · intro h hlt
            cases hlt with
            | head _ _ hba2 => exact hba hba2
            | tail _ _ htl => exact h htl
          · intro h hlt
            exact h (List.lt.tail hba hab hlt)

/-- `strLeb` coincides with Mathlib's linear order on `String`. -/
theorem strLeb_iff_le (a b : String) : strLeb a b = true ↔ a ≤ b := by
  rw [String.le_iff_toList_le, ← not_lt]
  rw [show (strLeb a b = true) = (lexLe a.data b.data = true) from rfl]
  rw [lexLe_iff_not_lt]
  exact not_congr ((List.lt_iff_lex_lt b.toList a.toList).trans Iff.rfl)

theorem strLe_iff_le (a b : String) : StrLe a b ↔ a ≤ b := strLeb_iff_le a b

instance : IsTotal String StrLe :=
  ⟨fun a b => by
    rw [strLe_iff_le, strLe_iff_le]
    exact le_total a b⟩

instance : IsTrans String StrLe :=
  ⟨fun a b c hab hbc => by
    rw [strLe_iff_le] at *
    exact le_trans hab hbc⟩

/-- Python `sorted(list(set(xs)))` for a list of strings: deduplicate, then
sort lexicographically. -/
def pySortedSet (xs : List String) : List String :=
  List.insertionSort StrLe xs.dedup

theorem mem_pySortedSet {u : String} {xs : List String} :
    u ∈ pySortedSet xs ↔ u ∈ xs := by
  unfold pySortedSet
  rw [List.mem_insertionSort, List.mem_dedup]

theorem nodup_pySortedSet (xs : List String) : (pySortedSet xs).Nodup :=
  ((List.perm_insertionSort StrLe xs.dedup).nodup_iff).mpr (List.nodup_dedup xs)

theorem sorted_pySortedSet (xs : List String) : (pySortedSet xs).Sorted (· ≤ ·) := by
  have h := List.sorted_insertionSort StrLe xs.dedup
  exact List.Pairwise.imp (fun hab => (strLe_iff_le _ _).mp hab) h

/-! ## `urllib.parse.urljoin`, restricted

The source calls `urljoin` in two places: joining `BASE_URL` with a series
directory name, and joining a series directory URL with a hyperlink target.
We model `urljoin(base, url)` for the shapes that occur there: `base` an
absolute URL ending in `/` and `url` a scheme-less relative path reference
(no leading `/`, no `.`/`..` segments).  Faithful to CPython, the reference
first has the ASCII tab, carriage-return and newline characters removed
(`urllib.parse`'s unsafe-byte stripping); an empty reference yields the
base unchanged. -/

/-- Removes ASCII tab, CR and LF anywhere in the string, as
`urllib.parse` does to a URL before splitting it. -/
def stripUnsafeBytes (s : String) : String :=
  String.mk (s.data.filter (fun c => !(c = '\t' || c = '\n' || c = '\r')))

/-- `urllib.parse.urljoin(base, url)` restricted to a base ending in `/`
and a scheme-less relative-path reference. -/
def urljoin (base url : String) : String :=
  let u := stripUnsafeBytes url
  if u = "" then base else base ++ u

/-! ## ListingFetcher / CatalogBuilder (`get_all_spec_files`, lines 45-65)

The transport plus `raise_for_status` is an oracle
`fetch : String → Except RequestException (List String)` returning, for a
directory URL, the sequence of `href` targets of the anchors on that page
(the HTML parser is the external collaborator producing them), or a
transport error. -/

/-- Python `requests.exceptions.RequestException` (connection error,
timeout, or non-2xx status raised by `raise_for_status`). -/
inductive RequestException where
  | mk
deriving DecidableEq, Repr

/-- Python `re.search(r'\.zip$', s)` as a Boolean: `$` matches at the end
of the string or just before a newline that ends the string. -/
def matchesZipRegex (s : String) : Bool :=
  endsWithStr s ".zip" || endsWithStr s ".zip\n"

/-- The items contributed by one fetched directory page: the hrefs matching
the regex, each resolved against the directory URL (line 59-60). -/
def listingItems (seriesURL : String) (hrefs : List String) : List String :=
  (hrefs.filter matchesZipRegex).map (fun h => urljoin seriesURL h)

/-- One iteration of the loop in `get_all_spec_files` (lines 52-63): fetch
the series directory page; on transport failure log and contribute nothing,
otherwise contribute the matching resolved links. -/
def fetchSeriesItems (fetch : String → Except RequestException (List String))
    (series_dir : String) : List String :=
  let series_url := urljoin BASE_URL series_dir
  match fetch series_url with
  | .error _ => []
  | .ok hrefs => listingItems series_url hrefs

/-- The accumulated `all_spec_files` list after the loop over a directory
list. -/
def allSpecFilesRaw (dirs : List String)
    (fetch : String → Except RequestException (List String)) : List String :=
  match dirs with
  | [] => []
  | d :: ds => fetchSeriesItems fetch d ++ allSpecFilesRaw ds fetch

/-- `get_all_spec_files` with the directory list as a parameter:
`sorted(list(set(all_spec_files)))` (line 65). -/
def get_all_spec_files_over (dirs : List String)
    (fetch : String → Except RequestException (List String)) : List String :=
  pySortedSet (allSpecFilesRaw dirs fetch)

/-- `get_all_spec_files` (lines 45-65): the loop runs over the hardcoded
`SERIES_DIRS`. -/
def get_all_spec_files (fetch : String → Except RequestException (List String)) :
    List String :=
  get_all_spec_files_over SERIES_DIRS fetch

theorem mem_allSpecFilesRaw {u : String} {dirs : List String}
    {fetch : String → Except RequestException (List String)} :
    u ∈ allSpecFilesRaw dirs fetch ↔ ∃ d ∈ dirs, u ∈ fetchSeriesItems fetch d := by
  induction dirs with
  | nil => simp [allSpecFilesRaw]
  | cons d ds ih => simp [allSpecFilesRaw, ih, or_and_right, exists_or]

/-! ## ProgressStore (`save_state` / `load_state`, lines 67-77)

The durable record file is modelled by `Option StoredDoc`: `none` when the
file does not exist, `some doc` when it does.  For the purposes of
`json.load`, a file's contents are either a parsable serialization of a
state dictionary (whose `"downloaded_files"` field is a list of path
strings) or unparsable bytes. -/

/-- Contents of the durable state file as seen by `json.load`. -/
inductive StoredDoc where
  /-- A parsable serialization of `{"downloaded_files": [...]}`. -/
  | parsable (downloaded_files : List String)
  /-- Bytes that `json.load` rejects with a `JSONDecodeError`. -/
  | unparsable
deriving DecidableEq, Repr

/-- The fatal error surfaced when the durable record cannot be parsed
(`json.JSONDecodeError` propagating uncaught out of `load_state`; the
spec calls it `CorruptStateError`). -/
inductive CorruptStateError where
  | corrupt
deriving DecidableEq, Repr

/-- `load_state` (lines 72-77): if the state file exists, parse it —
an unparsable file raises, and nothing catches the exception; if the
file is absent, return `{"downloaded_files": []}`. -/
def load_state : Option StoredDoc → Except CorruptStateError (List String)
  | none => .ok []
  | some (.parsable ds) => .ok ds
  | some .unparsable => .error .corrupt

/-- `save_state` (lines 67-70): the durable content after the call is the
full serialization of the given record. -/
def save_state (ds : List String) : StoredDoc := .parsable ds

/-- Crash semantics of `save_state` (lines 69-70): the file contents a
reader can observe if the process crashes around the write.  Before
`open(STATE_FILE, 'w')` the old content is observable; `open` with mode
`'w'` immediately truncates the file in place, so between the `open` and
the completion of `json.dump` the observable content is a proper prefix
of the new serialization (empty right after the truncation), which is not
parsable JSON; after `json.dump` returns, the full new serialization is
observable. -/
def save_state_observables (old : Option StoredDoc) (ds : List String) :
    List (Option StoredDoc) :=
  [old, some .unparsable, some (save_state ds)]

/-! ## Local path resolution (`download_file`, lines 83-89)

`filename = url.split('/')[-1]`, `series = url.split('/')[-2]`, and
`filepath = Path(DOWNLOAD_DIR) / series / filename`, whose `str` is the
`/`-joined path.  (For the URLs this program produces both segments are
nonempty, so the `Path` join is plain `/`-joining; a negative index on a
too-short split, which would raise `IndexError` in Python, is modelled
by the empty string.) -/

/-- `url.split('/')[-1]` (line 83). -/
def url_filename (url : String) : String :=
  (pySplitSlash url).getLastD ""

/-- `url.split('/')[-2]` (line 84). -/
def url_series (url : String) : String :=
  let parts := pySplitSlash url
  parts.getD (parts.length - 2) ""

/-- `series_dir = Path(DOWNLOAD_DIR) / series` (line 86). -/
def series_dir (url : String) : String :=
  DOWNLOAD_DIR ++ "/" ++ url_series url

/-- `filepath = series_dir / filename` (line 89); its string form is the
durable identity recorded in the state (the spec's `localPath`). -/
def filepath (url : String) : String :=
  series_dir url ++ "/" ++ url_filename url

/-! ## Filesystem and the per-item worker (`download_file`, lines 79-114) -/

/-- The filesystem and durable-record state touched by the program:
the set of directories created, the regular files written (path with the
list of streamed chunks), and the state file. -/
structure World where
  dirs : List String
  files : List (String × List String)
  state_file : Option StoredDoc
deriving DecidableEq, Repr

/-- `series_dir.mkdir(parents=True, exist_ok=True)` (line 87): create the
directory if absent.  (Creation of intermediate parent segments is not
tracked separately; the claims inspect only the series directory.) -/
def mkdirExistOk (dirs : List String) (d : String) : List String :=
  if d ∈ dirs then dirs else dirs ++ [d]

/-- Overwrite (or create) a regular file with the given chunks. -/
def writeFile (files : List (String × List String)) (p : String)
    (chunks : List String) : List (String × List String) :=
  (files.filter (fun kv => kv.1 ≠ p)) ++ [(p, chunks)]

/-- Result of one `download_file` call: the in-memory record (the shared
`state["downloaded_files"]` list), the filesystem, and the list of URLs
for which a network GET was performed. -/
structure DownloadResult where
  record : List String
  world : World
  gets : List String
deriving DecidableEq, Repr

/-- `download_file(url, state)` (lines 79-114).  The transport is the
oracle `get`: `.ok chunks` is a 2xx response streaming the given chunks,
`.error` a `RequestException` (connection failure, timeout, or non-2xx
raised by `raise_for_status`; the handler on lines 111-112 logs it and
returns).  Steps: resolve the local path, create the series directory,
skip if the path is already recorded, otherwise GET, stream to the file,
append the path to the shared record and persist the state. -/
def download_file (get : String → Except RequestException (List String))
    (url : String) (record : List String) (w : World) : DownloadResult :=
  let sdir := series_dir url
  let w1 : World := { w with dirs := mkdirExistOk w.dirs sdir }
  let fpath := filepath url
  if fpath ∈ record then
    { record := record, world := w1, gets := [] }
  else
    match get url with
    | .error _ =>
      { record := record, world := w1, gets := [url] }
    | .ok chunks =>
      let w2 : World := { w1 with files := writeFile w1.files fpath chunks }
      let record2 := record ++ [fpath]
      { record := record2
        world := { w2 with state_file := some (save_state record2) }
        gets := [url] }

/-! ## Queue seeding and the orchestrator (`worker` / `main`, lines 117-161) -/

/-- The queue-seeding filter (line 143): keep exactly the catalog entries
whose resolved local path is not in the loaded record. -/
def files_to_download (catalog record : List String) : List String :=
  catalog.filter (fun f => !(record.contains (filepath f)))

/-- The pool of workers draining the queue (lines 117-126, 150-157): each
queued URL is processed by `download_file` exactly once against the shared
record; the final record and filesystem do not depend on which worker took
which item, so the drain is modelled as a fold over the queue. -/
def process_queue (get : String → Except RequestException (List String))
    (queue : List String) (record : List String) (w : World) :
    List String × World :=
  match queue with
  | [] => (record, w)
  | url :: rest =>
    let r := download_file get url record w
    process_queue get rest r.record r.world

/-- Outcome of a completed `main()` call. -/
structure MainResult where
  record : List String
  world : World
  catalog : List String
  queued : List String
deriving DecidableEq, Repr

/-- `main()` (lines 128-161): create the download root, load the state
(an unparsable state file propagates the fatal parse error), build the
catalog, return early if it is empty, otherwise seed the queue with the
not-yet-downloaded files, drain it, and finally remove the state file if
it exists. -/
def main_run (fetch : String → Except RequestException (List String))
    (get : String → Except RequestException (List String))
    (disk0 : Option StoredDoc) : Except CorruptStateError MainResult :=
  let w0 : World := { dirs := mkdirExistOk [] DOWNLOAD_DIR
                      files := []
                      state_file := disk0 }
  match load_state disk0 with
  | .error e => .error e
  | .ok record =>
    let catalog := get_all_spec_files fetch
    if catalog = [] then
      .ok { record := record, world := w0, catalog := catalog, queued := [] }
    else
      let queue := files_to_download catalog record
      let out := process_queue get queue record w0
      .ok { record := out.1
            world := { out.2 with state_file := none }
            catalog := catalog
            queued := queue }

/-! ## Two workers completing concurrently (lines 104-109 and 117-126)

On a successful download a worker executes, on the shared `state`
dictionary, the two statements
`state["downloaded_files"].append(str(filepath))` and
`save_state(state)` with no lock of any kind (`download_file` is called
from `MAX_THREADS` plain `threading.Thread` workers).  We model two
workers A and B that have each successfully streamed a distinct item and
are about to run this completion sequence, as a transition system whose
atomic actions are one worker's append and one worker's persist (the
persist writes a snapshot of the shared in-memory list).  Program
counters: `0` = before the append, `1` = appended but not yet persisted,
`2` = done. -/

/-- Shared state of the two completing workers. -/
structure PoolSt where
  mem : List String
  disk : Option StoredDoc
  pcA : Nat
  pcB : Nat
deriving DecidableEq, Repr

/-- Interleaved small-step semantics of the two completion sequences.
No step is guarded by the other worker's program counter: the code takes
no lock between the append and the persist. -/
inductive WorkerStep (pA pB : String) : PoolSt → PoolSt → Prop where
  | appendA (s : PoolSt) : s.pcA = 0 →
      WorkerStep pA pB s ⟨s.mem ++ [pA], s.disk, 1, s.pcB⟩
  | persistA (s : PoolSt) : s.pcA = 1 →
      WorkerStep pA pB s ⟨s.mem, some (save_state s.mem), 2, s.pcB⟩
  | appendB (s : PoolSt) : s.pcB = 0 →
      WorkerStep pA pB s ⟨s.mem ++ [pB], s.disk, s.pcA, 1⟩
  | persistB (s : PoolSt) : s.pcB = 1 →
      WorkerStep pA pB s ⟨s.mem, some (save_state s.mem), s.pcA, 2⟩

/-- States reachable by interleaving the two workers' steps. -/
def PoolReachable (pA pB : String) : PoolSt → PoolSt → Prop :=
  Relation.ReflTransGen (WorkerStep pA pB)

/-- The property the spec mandates: the append-then-persist sequence is a
single critical section, mutually exclusive across the two workers — no
reachable state has both workers between their append and their persist. -/
def MutualExclusion (pA pB : String) (init : PoolSt) : Prop :=
  ∀ s, PoolReachable pA pB init s → ¬(s.pcA = 1 ∧ s.pcB = 1)

/-! ## Helper lemmas -/

theorem mem_fetchSeriesItems {u : String}
    {fetch : String → Except RequestException (List String)} {d : String} :
    u ∈ fetchSeriesItems fetch d ↔
      ∃ hs, fetch (urljoin BASE_URL d) = .ok hs ∧
        u ∈ listingItems (urljoin BASE_URL d) hs := by
  simp only [fetchSeriesItems]
  cases hf : fetch (urljoin BASE_URL d) with
  | error e => simp
  | ok hrefs => simp

theorem mem_mkdirExistOk (dirs : List String) (d : String) :
    d ∈ mkdirExistOk dirs d := by
  unfold mkdirExistOk
  split
  · assumption
  · simp

theorem mem_files_to_download {catalog record : List String} {f : String} :
    f ∈ files_to_download catalog record ↔ f ∈ catalog ∧ filepath f ∉ record := by
  unfold files_to_download
  rw [List.mem_filter]
  simp [List.contains]

/-! ## Shared concrete instances used in witnesses and counterexamples -/

/-- The Rel-9 21-series directory URL. -/
def url21 : String := urljoin BASE_URL "21_series/"

/-- A first concrete item URL under the 21-series directory. -/
def urlA : String := urljoin url21 "a.zip"

/-- A second concrete item URL under the 21-series directory. -/
def urlB : String := urljoin url21 "b.zip"

/-- A concrete listing oracle: the 21-series directory lists `a.zip` and
`b.zip`; every other directory fetch fails with a transport error. -/
def fetchEx : String → Except RequestException (List String) := fun u =>
  if u = url21 then .ok ["a.zip", "b.zip"] else .error .mk

/-- A concrete transport oracle: the GET for `urlA` succeeds with one
chunk; every other GET fails. -/
def getEx : String → Except RequestException (List String) := fun u =>
  if u = urlA then .ok ["bytes"] else .error .mk

/-- A concrete world with only the download root present. -/
def worldEx : World :=
  { dirs := [DOWNLOAD_DIR], files := [], state_file := none }

/-! ## Claims -/

/-- C1: the two statements a worker runs on a successful completion —
the append to the shared in-memory record and the persisting
`save_state` call — are executed with no lock, so the required mutual
exclusion across workers fails: there is a reachable interleaving of two
workers completing distinct items in which both workers are
simultaneously between their append and their persist (both program
counters equal `1`), i.e. the append+persist critical section of one
worker is entered while the other's is still open. -/
theorem c1_no_mutual_exclusion :
    ∃ s, PoolReachable "data/Rel-9/21_series/a.zip" "data/Rel-9/21_series/b.zip"
        ⟨[], none, 0, 0⟩ s ∧
      s.pcA = 1 ∧ s.pcB = 1 :=
  ⟨⟨["data/Rel-9/21_series/a.zip", "data/Rel-9/21_series/b.zip"], none, 1, 1⟩,
    Relation.ReflTransGen.tail
      (Relation.ReflTransGen.single (WorkerStep.appendA ⟨[], none, 0, 0⟩ rfl))
      (WorkerStep.appendB ⟨["data/Rel-9/21_series/a.zip"], none, 1, 0⟩ rfl),
    rfl, rfl⟩

/-- C2 counterexample: a run in which the queued item `urlB` fails to
download (its GET returns a transport error, and its local path is absent
from the final record) yet the state file does not exist when the run
terminates — `main` removes it unconditionally once the queue drains. -/
theorem c2_counterexample :
    ∃ r, main_run fetchEx getEx (some (StoredDoc.parsable [])) = .ok r ∧
      urlB ∈ r.queued ∧
      getEx urlB = .error .mk ∧
      filepath urlB ∉ r.record ∧
      r.world.state_file = none := by
  refine ⟨_, rfl, ?_, rfl, ?_, rfl⟩
  · decide
  · decide

/-- C2 (amended): the durable record is deleted at the end of every run
that loads the record successfully and discovers a nonempty catalog —
including partial runs in which queued items failed to download; a
remaining state file marks only a run interrupted before the queue
drained (or aborted on record corruption), not a run that merely had
failed items. -/
theorem c2_amended (fetch get : String → Except RequestException (List String))
    (disk0 : Option StoredDoc) (record : List String)
    (h1 : load_state disk0 = .ok record)
    (h2 : get_all_spec_files fetch ≠ []) :
    ∃ r, main_run fetch get disk0 = .ok r ∧ r.world.state_file = none := by
  simp only [main_run, h1]
  rw [if_neg h2]
  exact ⟨_, rfl, rfl⟩

/-- C2 witness: the amended theorem applied to the concrete failing run
of the counterexample. -/
theorem c2_amended_witness :
    load_state (some (StoredDoc.parsable [])) = .ok [] ∧
    get_all_spec_files fetchEx ≠ [] ∧
    ∃ r, main_run fetchEx getEx (some (StoredDoc.parsable [])) = .ok r ∧
      r.world.state_file = none :=
  ⟨rfl, by decide, c2_amended fetchEx getEx (some (StoredDoc.parsable [])) [] rfl (by decide)⟩

/-- C3: for every list of series directories and every assignment of
listing results to them, the returned catalog contains a URL exactly when
some directory's fetch contributed it, contains no duplicates, and is
sorted in the lexicographic string order. -/
theorem c3_catalog_dedup_sorted_union (dirs : List String)
    (fetch : String → Except RequestException (List String)) :
    (∀ u, u ∈ get_all_spec_files_over dirs fetch ↔
        ∃ d ∈ dirs, u ∈ fetchSeriesItems fetch d) ∧
    (get_all_spec_files_over dirs fetch).Nodup ∧
    (get_all_spec_files_over dirs fetch).Sorted (· ≤ ·) :=
  ⟨fun u => by
      unfold get_all_spec_files_over
      rw [mem_pySortedSet, mem_allSpecFilesRaw],
    nodup_pySortedSet _,
    sorted_pySortedSet _⟩

/-- C4: loading the progress record yields the empty record when the
state file is absent, and surfaces the fatal parse error — rather than
an empty record — when the file exists but cannot be parsed. -/
theorem c4_load_absent_empty_unparsable_fatal :
    load_state none = .ok [] ∧
    load_state (some StoredDoc.unparsable) = .error CorruptStateError.corrupt :=
  ⟨rfl, rfl⟩

/-- C5 counterexample: during a persist that replaces a one-path record
with a two-path record, a crash-time reader can observe the truncated,
unparsable file — a content that is neither the prior record nor the new
one, so the persist is not atomic. -/
theorem c5_counterexample :
    some StoredDoc.unparsable ∈
      save_state_observables (some (StoredDoc.parsable ["data/Rel-9/21_series/a.zip"]))
        ["data/Rel-9/21_series/a.zip", "data/Rel-9/21_series/b.zip"] ∧
    some StoredDoc.unparsable ≠ some (StoredDoc.parsable ["data/Rel-9/21_series/a.zip"]) ∧
    some StoredDoc.unparsable ≠
      some (save_state ["data/Rel-9/21_series/a.zip", "data/Rel-9/21_series/b.zip"]) := by
  refine ⟨by decide, by decide, by decide⟩

/-- C5 (amended): persisting the progress record writes the full record,
overwriting any prior version — the final durable content is the
serialization of the given record, independent of the prior content — but
it is not atomic with respect to a concurrent crash: the file is
truncated in place before the new serialization is written, so a reader
at a crash point can observe an unparsable partially written record. -/
theorem c5_amended (old : Option StoredDoc) (ds : List String) :
    (save_state_observables old ds).getLast? = some (some (save_state ds)) ∧
    some StoredDoc.unparsable ∈ save_state_observables old ds :=
  ⟨rfl, by simp [save_state_observables]⟩

/-- C6: seeding the work queue keeps exactly the catalog items whose
resolved local path is not in the loaded record — an item whose local
path is recorded is never enqueued — and if the record contains every
item's local path, zero items are enqueued. -/
theorem c6_queue_seeding (catalog record : List String) :
    (∀ f, f ∈ files_to_download catalog record ↔
        f ∈ catalog ∧ filepath f ∉ record) ∧
    ((∀ f ∈ catalog, filepath f ∈ record) → files_to_download catalog record = []) :=
  ⟨fun f => mem_files_to_download,
    fun hall => by
      unfold files_to_download
      rw [List.filter_eq_nil_iff]
      intro f hf
      simp [List.contains, hall f hf]⟩

/-- C6 witness: with a record already containing both items' local paths,
the queue-seeding filter enqueues nothing. -/
theorem c6_queue_seeding_witness :
    (∀ f ∈ [urlA, urlB], filepath f ∈ [filepath urlA, filepath urlB]) ∧
    files_to_download [urlA, urlB] [filepath urlA, filepath urlB] = [] :=
  ⟨by decide, (c6_queue_seeding [urlA, urlB] [filepath urlA, filepath urlB]).2 (by decide)⟩

/-- C7: downloading an item whose resolved local path is already in the
record is an idempotent no-op — no network GET is performed, no file
content is written, and both the in-memory record and the durable state
file are left unchanged. -/
theorem c7_skip_is_idempotent_noop
    (get : String → Except RequestException (List String))
    (url : String) (record : List String) (w : World)
    (h : filepath url ∈ record) :
    (download_file get url record w).gets = [] ∧
    (download_file get url record w).record = record ∧
    (download_file get url record w).world.files = w.files ∧
    (download_file get url record w).world.state_file = w.state_file := by
  unfold download_file
  rw [if_pos h]
  exact ⟨rfl, rfl, rfl, rfl⟩

/-- C7 witness: the skip theorem at a concrete already-recorded item. -/
theorem c7_skip_is_idempotent_noop_witness :
    filepath urlA ∈ [filepath urlA] ∧
    ((download_file getEx urlA [filepath urlA] worldEx).gets = [] ∧
      (download_file getEx urlA [filepath urlA] worldEx).record = [filepath urlA] ∧
      (download_file getEx urlA [filepath urlA] worldEx).world.files = worldEx.files ∧
      (download_file getEx urlA [filepath urlA] worldEx).world.state_file =
        worldEx.state_file) :=
  ⟨by decide, c7_skip_is_idempotent_noop getEx urlA [filepath urlA] worldEx (by decide)⟩

/-- C8: a transport failure while fetching one directory's listing is
contained — that directory contributes zero items, and the catalog is
exactly the union of the items contributed by the directories whose
fetches succeeded. -/
theorem c8_failed_directory_contained (dirs : List String)
    (fetch : String → Except RequestException (List String))
    (d : String) (e : RequestException)
    (_hd : d ∈ dirs) (he : fetch (urljoin BASE_URL d) = .error e) :
    fetchSeriesItems fetch d = [] ∧
    (∀ u, u ∈ get_all_spec_files_over dirs fetch ↔
        ∃ d2 ∈ dirs, ∃ hs, fetch (urljoin BASE_URL d2) = .ok hs ∧
          u ∈ listingItems (urljoin BASE_URL d2) hs) :=
  ⟨by simp only [fetchSeriesItems]; rw [he],
    fun u => by
      unfold get_all_spec_files_over
      rw [mem_pySortedSet, mem_allSpecFilesRaw]
      constructor
      · rintro ⟨d2, hd2, hm⟩
        obtain ⟨hs, hok, hmi⟩ := mem_fetchSeriesItems.mp hm
        exact ⟨d2, hd2, hs, hok, hmi⟩
      · rintro ⟨d2, hd2, hs, hok, hmi⟩
        exact ⟨d2, hd2, mem_fetchSeriesItems.mpr ⟨hs, hok, hmi⟩⟩⟩

/-- C8 witness: with the 22-series fetch failing and the 21-series fetch
succeeding, the failing directory contributes nothing and the catalog is
the union over the successful directories. -/
theorem c8_failed_directory_contained_witness :
    "22_series/" ∈ ["21_series/", "22_series/"] ∧
    fetchEx (urljoin BASE_URL "22_series/") = .error RequestException.mk ∧
    (fetchSeriesItems fetchEx "22_series/" = [] ∧
      ∀ u, u ∈ get_all_spec_files_over ["21_series/", "22_series/"] fetchEx ↔
        ∃ d2 ∈ ["21_series/", "22_series/"],
          ∃ hs, fetchEx (urljoin BASE_URL d2) = .ok hs ∧
            u ∈ listingItems (urljoin BASE_URL d2) hs) :=
  ⟨by decide, rfl,
    c8_failed_directory_contained ["21_series/", "22_series/"] fetchEx
      "22_series/" RequestException.mk (by decide) rfl⟩

/-- C9 counterexample: on the 21-series directory page, the hyperlink
target `"a.zi\tp"` resolves (after `urljoin`'s unsafe-byte stripping) to
a URL that ends in `.zip`, yet the fetcher excludes it, because the
`\.zip$` filter is applied to the raw href before resolution — so
"included iff the resolved target ends in `.zip`" fails. -/
theorem c9_counterexample :
    endsWithStr (urljoin (urljoin BASE_URL "21_series/") "a.zi\tp") ".zip" = true ∧
    listingItems (urljoin BASE_URL "21_series/") ["a.zi\tp"] = [] := by
  exact ⟨by decide, rfl⟩

/-- C9 (amended): a hyperlink is included as an item exactly when its raw,
unresolved href target matches the pattern `\.zip$` — that is, ends in
`.zip`, or in `.zip` followed by a single trailing newline — and each
included item is the href resolved against the directory URL. -/
theorem c9_amended (dirURL : String) (hrefs : List String) (u : String) :
    u ∈ listingItems dirURL hrefs ↔
      ∃ h ∈ hrefs,
        (endsWithStr h ".zip" = true ∨ endsWithStr h ".zip\n" = true) ∧
        u = urljoin dirURL h := by
  unfold listingItems
  rw [List.mem_map]
  constructor
  · rintro ⟨h, hmem, rfl⟩
    rw [List.mem_filter] at hmem
    refine ⟨h, hmem.1, ?_, rfl⟩
    have := hmem.2
    unfold matchesZipRegex at this
    exact Bool.or_eq_true _ _ ▸ this
  · rintro ⟨h, hmem, hz, rfl⟩
    refine ⟨h, List.mem_filter.mpr ⟨hmem, ?_⟩, rfl⟩
    unfold matchesZipRegex
    exact (Bool.or_eq_true _ _).mpr hz

/-- C10: every call of the per-item download creates the item's series
directory under the content root before the record check, so even an item
that is skipped because its local path is already recorded leaves the
series directory present in the filesystem (and still performs no GET). -/
theorem c10_mkdir_before_skip
    (get : String → Except RequestException (List String))
    (url : String) (record : List String) (w : World)
    (h : filepath url ∈ record) :
    series_dir url ∈ (download_file get url record w).world.dirs ∧
    (download_file get url record w).gets = [] := by
  unfold download_file
  rw [if_pos h]
  exact ⟨mem_mkdirExistOk w.dirs (series_dir url), rfl⟩

/-- C10 witness: the directory-creation theorem at a concrete skipped
item, starting from a world in which the series directory is absent. -/
theorem c10_mkdir_before_skip_witness :
    filepath urlB ∈ [filepath urlB] ∧
    (series_dir urlB ∈ (download_file getEx urlB [filepath urlB] worldEx).world.dirs ∧
      (download_file getEx urlB [filepath urlB] worldEx).gets = []) :=
  ⟨by decide, c10_mkdir_before_skip getEx urlB [filepath urlB] worldEx (by decide)⟩

end Crawler
